import Mathlib

set_option maxRecDepth 100000

/-!
Shallow embedding of the OpenMetrics text encoder of this repository
(source file src/encoding/text.rs) together with the small data model it
serializes.  Stateful writing through the Rust io::Write trait is modelled
by explicit state passing: a writer is a function from a sink state and a
string to a result that carries the next sink state and either the
accepted byte count or an error value, mirroring the signature of
io::Write::write.  The question-mark operator of the source corresponds to
the short-circuiting bind on that result type.
-/

namespace PromText

/-- Result of one fallible, state-threading step: models the Rust value
Result of type A together with the mutable writer state, which persists
into the error case (the caller keeps the partially filled sink). -/
inductive WRes (σ ε α : Type) : Type where
  | ok : σ → α → WRes σ ε α
  | err : σ → ε → WRes σ ε α
  deriving DecidableEq

/-- A writer is the io::Write capability: given the sink state and the
bytes to write it returns the new state and the number of bytes accepted,
or an error.  Rust write takes bytes; documents here are ASCII so a Lean
string stands for the byte slice. -/
def Writer (σ ε : Type) : Type := σ → String → WRes σ ε Nat

/-- Short-circuiting sequencing of two steps: the translation of the Rust
question-mark operator, which returns the error of the first failing call
unchanged and runs nothing afterwards. -/
def wbind {σ ε α β : Type} : WRes σ ε α → (σ → α → WRes σ ε β) → WRes σ ε β
  | .ok s a, f => f s a
  | .err s e, _ => .err s e

/-- Dyadic rational model of an f64 value: the value m divided by two to
the power e.  Rust f64 values are exactly the dyadic rationals in range,
and every arithmetic step the claims exercise (comparisons, the additions
performed by observe on exactly representable inputs) is exact in IEEE
double precision, so the model agrees with the source on them.
Representations are not normalized; equality and order are the numeric
ones, decided by cross multiplication. -/
structure F64 where
  m : Int
  e : Nat

/-- Two to the power e as an integer. -/
def pow2 (e : Nat) : Int := Int.ofNat (Nat.pow 2 e)

/-- Numeric equality test on f64 values: models the Rust == on f64. -/
def F64.beq (a b : F64) : Bool := a.m * pow2 b.e == b.m * pow2 a.e

/-- Numeric less-or-equal test on f64 values. -/
def F64.fle (a b : F64) : Bool := decide (a.m * pow2 b.e ≤ b.m * pow2 a.e)

/-- Exact addition of f64 values (exact in IEEE on the inputs the claims
exercise). -/
def F64.add (a b : F64) : F64 := ⟨a.m * pow2 b.e + b.m * pow2 a.e, a.e + b.e⟩

/-- Decimal digits of the fractional part rem divided by den, most
significant first; den is a power of two so the expansion terminates
within fuel many digits when fuel is the dyadic exponent. -/
def fracDigits : Nat → Nat → Nat → String
  | 0, _, _ => ""
  | fuel + 1, den, rem =>
    if rem = 0 then ""
    else Nat.repr (rem * 10 / den) ++ fracDigits fuel den (rem * 10 % den)

/-- Decimal rendering of an f64 value: models the Rust f64 Display (the
to_string calls of the source), which prints the shortest decimal that
round-trips.  For dyadic rationals whose exact decimal expansion is short
— every numeric value the claims print — the shortest round-tripping
decimal is the exact expansion, and integers print without a decimal
point, so this exact-expansion renderer agrees with the source on them. -/
def F64.toString (a : F64) : String :=
  let den := Nat.pow 2 a.e
  let sgn := if a.m < 0 then "-" else ""
  let n := a.m.natAbs
  sgn ++ Nat.repr (n / den) ++
    (if n % den = 0 then "" else "." ++ fracDigits a.e den (n % den))

/-- The sentinel used as the last histogram bucket bound: f64::MAX, the
largest finite double, with value two to the 1024 minus two to the 971
(that is, two to the 53 minus one, times two to the 971). -/
def f64MAX : F64 := ⟨Int.ofNat ((Nat.pow 2 53 - 1) * Nat.pow 2 971), 0⟩

/-- The Encoder struct of text.rs lines 42 to 47: the metric name and the
optional outer label set, alongside the ambient writer.  The generic
label-set parameter S is instantiated at the Vec of string pairs instance
the source provides (text.rs lines 190 to 210); the top level of encode
passes None, which covers the None-of-unit case as well since a None
label set is never encoded. -/
structure Encoder where
  name : String
  labels : Option (List (String × String))

/-- The Encode instance for string slices (text.rs lines 182 to 188):
write the bytes of the string. -/
def strEncode {σ ε : Type} (w : Writer σ ε) (t : String) (s : σ) : WRes σ ε Unit :=
  wbind (w s t) fun s _ => .ok s ()

/-- The Encode instance for u64 (text.rs lines 174 to 180): write the
decimal representation. -/
def u64Encode {σ ε : Type} (w : Writer σ ε) (n : Nat) (s : σ) : WRes σ ε Unit :=
  wbind (w s (Nat.repr n)) fun s _ => .ok s ()

/-- The Encode instance for f64 (text.rs lines 166 to 172): write the
Display rendering. -/
def f64Encode {σ ε : Type} (w : Writer σ ε) (v : F64) (s : σ) : WRes σ ε Unit :=
  wbind (w s v.toString) fun s _ => .ok s ()

/-- Loop body of the Encode instance for Vec of string pairs (text.rs
lines 196 to 206): for each pair write name, equals-quote, value, quote,
and a comma whenever the peekable iterator has a further element. -/
def vecEncodeGo {σ ε : Type} (w : Writer σ ε) :
    List (String × String) → σ → WRes σ ε Unit
  | [], s => .ok s ()
  | (name, value) :: rest, s =>
    wbind (w s name) fun s _ =>
    wbind (w s "=\"") fun s _ =>
    wbind (w s value) fun s _ =>
    wbind (w s "\"") fun s _ =>
    match rest with
    | [] => .ok s ()
    | _ :: _ => wbind (w s ",") fun s _ => vecEncodeGo w rest s

/-- The Encode instance for Vec of string pairs (text.rs lines 190 to
210): empty vectors write nothing and return Ok early. -/
def vecEncode {σ ε : Type} (w : Writer σ ε) (labels : List (String × String))
    (s : σ) : WRes σ ε Unit :=
  if labels.isEmpty then .ok s () else vecEncodeGo w labels s

/-- Encoder::encode_labels (text.rs lines 66 to 81): when an outer label
set is present, write the opening curly bracket and the label pairs and
return a BucketEncoder with opened_curly_brackets set; otherwise return
one with the flag clear, writing nothing.  The returned Bool is the
opened_curly_brackets field of the BucketEncoder (text.rs lines 97 to
101), its only data besides the writer. -/
def Encoder.encode_labels {σ ε : Type} (w : Writer σ ε) (enc : Encoder)
    (s : σ) : WRes σ ε Bool :=
  match enc.labels with
  | some labels =>
    wbind (w s "\x7b") fun s _ =>
    wbind (vecEncode w labels s) fun s _ =>
    .ok s true
  | none => .ok s false

/-- Encoder::encode_suffix (text.rs lines 52 to 58): write the name, an
underscore and the suffix, then encode the labels. -/
def Encoder.encode_suffix {σ ε : Type} (w : Writer σ ε) (enc : Encoder)
    (suffix : String) (s : σ) : WRes σ ε Bool :=
  wbind (w s enc.name) fun s _ =>
  wbind (w s "_") fun s _ =>
  wbind (w s suffix) fun s _ =>
  enc.encode_labels w s

/-- Encoder::no_suffix (text.rs lines 60 to 64): write the bare name,
then encode the labels. -/
def Encoder.no_suffix {σ ε : Type} (w : Writer σ ε) (enc : Encoder)
    (s : σ) : WRes σ ε Bool :=
  wbind (w s enc.name) fun s _ =>
  enc.encode_labels w s

/-- Encoder::with_label_set (text.rs lines 83 to 94): rebind the encoder
to an outer label set (the source debug-asserts that none was bound). -/
def Encoder.with_label_set (enc : Encoder) (label_set : List (String × String)) :
    Encoder :=
  ⟨enc.name, some label_set⟩

/-- BucketEncoder::encode_bucket (text.rs lines 104 to 123): write a
comma and space when the curly bracket is already open, otherwise the
opening curly bracket; then the key, equals-quote, the value, and
quote-and-closing-bracket.  Key and value are Encode values, passed as
their encoding actions; the result is the ValueEncoder stage, which
carries no data besides the writer. -/
def BucketEncoder.encode_bucket {σ ε : Type} (w : Writer σ ε)
    (opened_curly_brackets : Bool) (key value : σ → WRes σ ε Unit)
    (s : σ) : WRes σ ε Unit :=
  wbind (if opened_curly_brackets then w s ", " else w s "\x7b") fun s _ =>
  wbind (key s) fun s _ =>
  wbind (w s "=\"") fun s _ =>
  wbind (value s) fun s _ =>
  wbind (w s "\"\x7d") fun s _ =>
  .ok s ()

/-- BucketEncoder::no_bucket (text.rs lines 125 to 132): close the curly
bracket when one was opened, else write nothing. -/
def BucketEncoder.no_bucket {σ ε : Type} (w : Writer σ ε)
    (opened_curly_brackets : Bool) (s : σ) : WRes σ ε Unit :=
  if opened_curly_brackets then
    wbind (w s "\x7d") fun s _ => .ok s ()
  else .ok s ()

/-- ValueEncoder::encode_value (text.rs lines 140 to 147): write one
space, the encoded scalar, and one newline. -/
def ValueEncoder.encode_value {σ ε : Type} (w : Writer σ ε)
    (value : σ → WRes σ ε Unit) (s : σ) : WRes σ ε Unit :=
  wbind (w s " ") fun s _ =>
  wbind (value s) fun s _ =>
  wbind (w s "\n") fun s _ =>
  .ok s ()

/-- A base (non-family) metric, carrying exactly the data its EncodeMetric
implementation reads from it.  Counter stores the value that Counter::get
returns (the tests instantiate the atomic at AtomicU64, so a natural
number); counter.rs is not under src, and per the spec get returns the
current value of the cell.  The histogram constructor stores the three
values returned by the calls self.sum(), self.count() and self.buckets()
in the Histogram implementation of EncodeMetric (text.rs lines 256 to
265); those are three independent reads, so under concurrent mutation
they need not come from one histogram state, which is why they are three
separate fields here. -/
inductive BaseMetric : Type where
  | counter : Nat → BaseMetric
  | histogram : F64 → Nat → List (F64 × Nat) → BaseMetric

/-- A registered metric: a base metric, or a MetricFamily over the Vec of
string pairs label-set type holding base metrics.  family.rs is not under
src; per the spec its read and iterate operations expose the entries as a
sequence of label set and metric pairs, modelled as that list.  Families
of families are excluded because with_label_set debug-asserts that no
outer label set is bound yet, which a nested family would violate. -/
inductive Metric : Type where
  | base : BaseMetric → Metric
  | family : List (List (String × String) × BaseMetric) → Metric

/-- The EncodeMetric implementation for Counter (text.rs lines 212 to
228): suffix total, no bucket label, then the value. -/
def encodeCounter {σ ε : Type} (w : Writer σ ε) (enc : Encoder) (value : Nat)
    (s : σ) : WRes σ ε Unit :=
  wbind (enc.encode_suffix w "total" s) fun s opened =>
  wbind (BucketEncoder.no_bucket w opened s) fun s _ =>
  ValueEncoder.encode_value w (u64Encode w value) s

/-- The bucket loop of the Histogram implementation of EncodeMetric
(text.rs lines 265 to 285): for each pair of upper bound and count,
render the bound as the literal plus-Inf token when it equals f64::MAX
and as its decimal rendering otherwise, then emit suffix bucket, the
bucket label le with that key, and the count as the value.  The source
also constructs a label tuple (lines 266 to 273) that it never uses; it
performs no writes and is omitted. -/
def encodeHistogramBuckets {σ ε : Type} (w : Writer σ ε) (enc : Encoder) :
    List (F64 × Nat) → σ → WRes σ ε Unit
  | [], s => .ok s ()
  | (upper_bound, count) :: rest, s =>
    let bucket_key := if upper_bound.beq f64MAX then "+Inf" else upper_bound.toString
    wbind (enc.encode_suffix w "bucket" s) fun s opened =>
    wbind (BucketEncoder.encode_bucket w opened
      (strEncode w "le") (strEncode w bucket_key) s) fun s _ =>
    wbind (ValueEncoder.encode_value w (u64Encode w count) s) fun s _ =>
    encodeHistogramBuckets w enc rest s

/-- The Histogram implementation of EncodeMetric (text.rs lines 250 to
289): the sum and count sample lines followed by one bucket line per
bucket.  The three arguments are the results of the three reads, in the
order the source performs them. -/
def encodeHistogram {σ ε : Type} (w : Writer σ ε) (enc : Encoder) (sum : F64)
    (count : Nat) (buckets : List (F64 × Nat)) (s : σ) : WRes σ ε Unit :=
  wbind (enc.encode_suffix w "sum" s) fun s opened =>
  wbind (BucketEncoder.no_bucket w opened s) fun s _ =>
  wbind (ValueEncoder.encode_value w (f64Encode w sum) s) fun s _ =>
  wbind (enc.encode_suffix w "count" s) fun s opened =>
  wbind (BucketEncoder.no_bucket w opened s) fun s _ =>
  wbind (ValueEncoder.encode_value w (u64Encode w count) s) fun s _ =>
  encodeHistogramBuckets w enc buckets s

/-- Dispatch of EncodeMetric over the base metric kinds. -/
def encodeBase {σ ε : Type} (w : Writer σ ε) (enc : Encoder) :
    BaseMetric → σ → WRes σ ε Unit
  | .counter value, s => encodeCounter w enc value s
  | .histogram sum count buckets, s => encodeHistogram w enc sum count buckets s

/-- The MetricFamily implementation of EncodeMetric (text.rs lines 230 to
248): iterate the guarded map entries and encode each metric under an
encoder rebound to that label set. -/
def encodeFamily {σ ε : Type} (w : Writer σ ε) (enc : Encoder) :
    List (List (String × String) × BaseMetric) → σ → WRes σ ε Unit
  | [], s => .ok s ()
  | (label_set, m) :: rest, s =>
    wbind (encodeBase w (enc.with_label_set label_set) m s) fun s _ =>
    encodeFamily w enc rest s

/-- Dispatch of EncodeMetric over registered metrics. -/
def encodeMetric {σ ε : Type} (w : Writer σ ε) (enc : Encoder) :
    Metric → σ → WRes σ ε Unit
  | .base m, s => encodeBase w enc m s
  | .family entries, s => encodeFamily w enc entries s

/-- Modelled from the spec: Descriptor (registry.rs is not under src) is
the immutable triple of name, help and metric-type strings, exposed by
the accessors name, help and m_type that the encoder calls. -/
structure Descriptor where
  name : String
  help : String
  m_type : String

/-- Modelled from the spec: Registry::iter (registry.rs is not under src)
yields the registered descriptor and metric pairs in registration order,
so a registry is embedded as that ordered list. -/
def Registry : Type := List (Descriptor × Metric)

/-- The per-entry loop of encode (text.rs lines 15 to 35): for each
registered metric write the HELP line, the TYPE line, and drive the
metric through a fresh Encoder with no outer label set (the source passes
None). -/
def encodeEntries {σ ε : Type} (w : Writer σ ε) :
    List (Descriptor × Metric) → σ → WRes σ ε Unit
  | [], s => .ok s ()
  | (desc, metric) :: rest, s =>
    wbind (w s "# HELP ") fun s _ =>
    wbind (w s desc.name) fun s _ =>
    wbind (w s " ") fun s _ =>
    wbind (w s desc.help) fun s _ =>
    wbind (w s "\n") fun s _ =>
    wbind (w s "# TYPE ") fun s _ =>
    wbind (w s desc.name) fun s _ =>
    wbind (w s " ") fun s _ =>
    wbind (w s desc.m_type) fun s _ =>
    wbind (w s "\n") fun s _ =>
    wbind (encodeMetric w ⟨desc.name, none⟩ metric s) fun s _ =>
    encodeEntries w rest s

/-- encode (text.rs lines 9 to 40): all registry entries in registration
order, then the single EOF line, then Ok. -/
def encode {σ ε : Type} (w : Writer σ ε) (registry : List (Descriptor × Metric))
    (s : σ) : WRes σ ε Unit :=
  wbind (encodeEntries w registry s) fun s _ =>
  wbind (w s "# EOF\n") fun s _ =>
  .ok s ()

/-- Modelled from the spec: the full state of a Histogram (histogram.rs
is not under src) — the running sum, the total observation count, and the
ordered bucket list of upper bound and cumulative count pairs, as
returned by one consistent read. -/
structure HistogramState where
  sum : F64
  count : Nat
  buckets : List (F64 × Nat)

/-- Modelled from the spec: Histogram::new fixes the caller-supplied
ascending bounds at construction and appends the sentinel (f64::MAX,
rendered plus-Inf) automatically if absent; every cumulative count starts
at zero, as do the sum and the total count. -/
def Histogram.new (bounds : List F64) : HistogramState :=
  ⟨⟨0, 0⟩, 0,
    (if bounds.any (fun b => b.beq f64MAX) then bounds else bounds ++ [f64MAX]).map
      (fun ub => (ub, 0))⟩

/-- Modelled from the spec: observe adds the value to the sum, increments
the total count, and increments the cumulative count of every bucket
whose upper bound is at least the value, as one atomic update. -/
def HistogramState.observe (h : HistogramState) (v : F64) : HistogramState :=
  ⟨h.sum.add v, h.count + 1,
    h.buckets.map (fun p => (p.1, if v.fle p.1 then p.2 + 1 else p.2))⟩

/-- The perfect sink: encoding into a growable byte buffer (the tests use
a Vec of bytes), where every write appends all bytes and reports the full
count. -/
def strWriter : Writer String Nat := fun s t => .ok (s ++ t) t.length

/-- A sink that accepts writes while a countdown lasts and then fails
every further write with the fixed error value, leaving its buffer
untouched: the state is the buffer so far paired with the countdown. -/
def failWriter (e : Nat) : Writer (String × Nat) Nat := fun s t =>
  match s.2 with
  | 0 => .err s e
  | k + 1 => .ok (s.1 ++ t, k) t.length

/-- A sink with a fixed byte capacity: each write accepts as many bytes
as still fit, reports that possibly smaller count, and never returns an
error — a short-writing sink. -/
def truncWriter (cap : Nat) : Writer String Nat := fun s t =>
  .ok (s ++ t.take (cap - s.length)) (min t.length (cap - s.length))

/-- The bytes the Vec-of-pairs loop writes for a given label list. -/
def vecGoStr : List (String × String) → String
  | [] => ""
  | (n, v) :: rest =>
    n ++ "=\"" ++ v ++ "\"" ++
      (match rest with
       | [] => ""
       | _ :: _ => "," ++ vecGoStr rest)

/-- The bytes the Vec-of-pairs Encode instance writes. -/
def vecStr (labels : List (String × String)) : String :=
  if labels.isEmpty then "" else vecGoStr labels

/-- The bytes encode_labels writes: an opening curly bracket and the label
pairs when an outer label set is present, nothing otherwise. -/
def labelsStr : Option (List (String × String)) → String
  | some ls => "\x7b" ++ vecStr ls
  | none => ""

/-- The bytes no_bucket writes: the closing curly bracket when one is
open. -/
def closeStr (opened : Bool) : String := if opened then "\x7d" else ""

/-- The bytes encode_bucket writes around one bucket label. -/
def bucketStr (opened : Bool) (k v : String) : String :=
  (if opened then ", " else "\x7b") ++ k ++ "=\"" ++ v ++ "\"\x7d"

/-- The bytes encode_value writes around one scalar rendering. -/
def valueStr (v : String) : String := " " ++ v ++ "\n"

/-- The bytes one counter sample line consists of. -/
def counterStr (name : String) (labels : Option (List (String × String)))
    (value : Nat) : String :=
  name ++ "_" ++ "total" ++ labelsStr labels ++ closeStr labels.isSome ++
    valueStr (Nat.repr value)

/-- The bucket label key rendering of one upper bound. -/
def bucketKeyStr (ub : F64) : String :=
  if ub.beq f64MAX then "+Inf" else ub.toString

/-- The bytes of the bucket sample lines of one histogram. -/
def histBucketsStr (name : String) (labels : Option (List (String × String))) :
    List (F64 × Nat) → String
  | [] => ""
  | (ub, count) :: rest =>
    name ++ "_" ++ "bucket" ++ labelsStr labels ++
      bucketStr labels.isSome "le" (bucketKeyStr ub) ++
      valueStr (Nat.repr count) ++ histBucketsStr name labels rest

/-- The bytes of all sample lines of one histogram. -/
def histStr (name : String) (labels : Option (List (String × String)))
    (sum : F64) (count : Nat) (buckets : List (F64 × Nat)) : String :=
  name ++ "_" ++ "sum" ++ labelsStr labels ++ closeStr labels.isSome ++
    valueStr sum.toString ++
  name ++ "_" ++ "count" ++ labelsStr labels ++ closeStr labels.isSome ++
    valueStr (Nat.repr count) ++
  histBucketsStr name labels buckets

/-- The bytes of all sample lines of one base metric. -/
def baseStr (name : String) (labels : Option (List (String × String))) :
    BaseMetric → String
  | .counter value => counterStr name labels value
  | .histogram sum count buckets => histStr name labels sum count buckets

/-- The bytes of all sample lines of one family. -/
def familyStr (name : String) :
    List (List (String × String) × BaseMetric) → String
  | [] => ""
  | (ls, m) :: rest => baseStr name (some ls) m ++ familyStr name rest

/-- The sample lines of one registered metric, driven with no outer label
set as encode does. -/
def metricStr (name : String) : Metric → String
  | .base m => baseStr name none m
  | .family entries => familyStr name entries

/-- The HELP line of one registry entry, as encode writes it. -/
def helpLine (d : Descriptor) : String :=
  "# HELP " ++ d.name ++ " " ++ d.help ++ "\n"

/-- The TYPE line of one registry entry, as encode writes it. -/
def typeLine (d : Descriptor) : String :=
  "# TYPE " ++ d.name ++ " " ++ d.m_type ++ "\n"

/-- The document body: one block per registered metric in registration
order, each block being the HELP line, then the TYPE line, then the
sample lines of that metric. -/
def docBlocks : List (Descriptor × Metric) → String
  | [] => ""
  | (d, m) :: rest => helpLine d ++ typeLine d ++ metricStr d.name m ++ docBlocks rest

theorem vecEncodeGo_run (labels : List (String × String)) :
    ∀ s, vecEncodeGo strWriter labels s = .ok (s ++ vecGoStr labels) () := by
  induction labels with
  | nil => intro s; simp [vecEncodeGo, vecGoStr, String.append_empty]
  | cons p rest ih =>
    obtain ⟨n, v⟩ := p
    cases rest with
    | nil =>
      intro s
      simp [vecEncodeGo, vecGoStr, wbind, strWriter, String.append_assoc]
    | cons q rest2 =>
      intro s
      have hl : vecEncodeGo strWriter ((n, v) :: q :: rest2) s =
          vecEncodeGo strWriter (q :: rest2)
            (s ++ n ++ "=\"" ++ v ++ "\"" ++ ",") := rfl
      have hr : vecGoStr ((n, v) :: q :: rest2) =
          n ++ "=\"" ++ v ++ "\"" ++ ("," ++ vecGoStr (q :: rest2)) := rfl
      rw [hl, ih, hr]
      simp only [String.append_assoc]

theorem vecEncode_run (labels : List (String × String)) :
    ∀ s, vecEncode strWriter labels s = .ok (s ++ vecStr labels) () := by
  cases labels with
  | nil => intro s; simp [vecEncode, vecStr, String.append_empty, List.isEmpty]
  | cons p rest =>
    intro s
    simp [vecEncode, vecStr, List.isEmpty, vecEncodeGo_run]

theorem encode_labels_run (name : String)
    (labels : Option (List (String × String))) :
    ∀ s, Encoder.encode_labels strWriter ⟨name, labels⟩ s =
      .ok (s ++ labelsStr labels) labels.isSome := by
  cases labels with
  | none =>
    intro s
    simp [Encoder.encode_labels, labelsStr, String.append_empty]
  | some ls =>
    intro s
    simp [Encoder.encode_labels, labelsStr, wbind, strWriter, vecEncode_run,
      String.append_assoc]

theorem encode_suffix_run (name : String)
    (labels : Option (List (String × String))) (suffix : String) :
    ∀ s, Encoder.encode_suffix strWriter ⟨name, labels⟩ suffix s =
      .ok (s ++ name ++ "_" ++ suffix ++ labelsStr labels) labels.isSome := by
  intro s
  simp [Encoder.encode_suffix, wbind, strWriter, encode_labels_run,
    String.append_assoc]

theorem no_bucket_run (opened : Bool) :
    ∀ s, BucketEncoder.no_bucket strWriter opened s =
      .ok (s ++ closeStr opened) () := by
  cases opened with
  | false => intro s; simp [BucketEncoder.no_bucket, closeStr, String.append_empty]
  | true => intro s; simp [BucketEncoder.no_bucket, closeStr, wbind, strWriter]

theorem encode_bucket_str_run (opened : Bool) (k v : String) :
    ∀ s, BucketEncoder.encode_bucket strWriter opened
        (strEncode strWriter k) (strEncode strWriter v) s =
      .ok (s ++ bucketStr opened k v) () := by
  cases opened with
  | false =>
    intro s
    simp [BucketEncoder.encode_bucket, bucketStr, strEncode, wbind, strWriter,
      String.append_assoc]
  | true =>
    intro s
    simp [BucketEncoder.encode_bucket, bucketStr, strEncode, wbind, strWriter,
      String.append_assoc]

theorem encode_value_u64_run (n : Nat) :
    ∀ s, ValueEncoder.encode_value strWriter (u64Encode strWriter n) s =
      .ok (s ++ valueStr (Nat.repr n)) () := by
  intro s
  simp [ValueEncoder.encode_value, valueStr, u64Encode, wbind, strWriter,
    String.append_assoc]

theorem encode_value_f64_run (v : F64) :
    ∀ s, ValueEncoder.encode_value strWriter (f64Encode strWriter v) s =
      .ok (s ++ valueStr v.toString) () := by
  intro s
  simp [ValueEncoder.encode_value, valueStr, f64Encode, wbind, strWriter,
    String.append_assoc]

theorem encodeCounter_run (name : String)
    (labels : Option (List (String × String))) (value : Nat) :
    ∀ s, encodeCounter strWriter ⟨name, labels⟩ value s =
      .ok (s ++ counterStr name labels value) () := by
  intro s
  simp [encodeCounter, counterStr, wbind, encode_suffix_run, no_bucket_run,
    encode_value_u64_run, String.append_assoc]

theorem encodeHistogramBuckets_run (name : String)
    (labels : Option (List (String × String))) (buckets : List (F64 × Nat)) :
    ∀ s, encodeHistogramBuckets strWriter ⟨name, labels⟩ buckets s =
      .ok (s ++ histBucketsStr name labels buckets) () := by
  induction buckets with
  | nil => intro s; simp [encodeHistogramBuckets, histBucketsStr, String.append_empty]
  | cons p rest ih =>
    obtain ⟨ub, count⟩ := p
    intro s
    simp [encodeHistogramBuckets, histBucketsStr, bucketKeyStr, wbind,
      encode_suffix_run, encode_bucket_str_run, encode_value_u64_run, ih,
      String.append_assoc]

theorem encodeHistogram_run (name : String)
    (labels : Option (List (String × String))) (sum : F64) (count : Nat)
    (buckets : List (F64 × Nat)) :
    ∀ s, encodeHistogram strWriter ⟨name, labels⟩ sum count buckets s =
      .ok (s ++ histStr name labels sum count buckets) () := by
  intro s
  simp [encodeHistogram, histStr, wbind, encode_suffix_run, no_bucket_run,
    encode_value_u64_run, encode_value_f64_run, encodeHistogramBuckets_run,
    String.append_assoc]

theorem encodeBase_run (name : String)
    (labels : Option (List (String × String))) (m : BaseMetric) :
    ∀ s, encodeBase strWriter ⟨name, labels⟩ m s =
      .ok (s ++ baseStr name labels m) () := by
  cases m with
  | counter value => exact encodeCounter_run name labels value
  | histogram sum count buckets => exact encodeHistogram_run name labels sum count buckets

theorem encodeFamily_run (name : String)
    (labels : Option (List (String × String)))
    (entries : List (List (String × String) × BaseMetric)) :
    ∀ s, encodeFamily strWriter ⟨name, labels⟩ entries s =
      .ok (s ++ familyStr name entries) () := by
  induction entries with
  | nil => intro s; simp [encodeFamily, familyStr, String.append_empty]
  | cons p rest ih =>
    obtain ⟨ls, m⟩ := p
    intro s
    simp [encodeFamily, familyStr, Encoder.with_label_set, wbind,
      encodeBase_run, ih, String.append_assoc]

theorem encodeMetric_run (name : String) (m : Metric) :
    ∀ s, encodeMetric strWriter ⟨name, none⟩ m s =
      .ok (s ++ metricStr name m) () := by
  cases m with
  | base b => exact encodeBase_run name none b
  | family entries => exact encodeFamily_run name none entries

theorem encodeEntries_run (reg : List (Descriptor × Metric)) :
    ∀ s, encodeEntries strWriter reg s = .ok (s ++ docBlocks reg) () := by
  induction reg with
  | nil => intro s; simp [encodeEntries, docBlocks, String.append_empty]
  | cons p rest ih =>
    obtain ⟨d, m⟩ := p
    intro s
    simp [encodeEntries, docBlocks, helpLine, typeLine, wbind, strWriter,
      encodeMetric_run, ih, String.append_assoc]

theorem encode_run (reg : List (Descriptor × Metric)) :
    ∀ s, encode strWriter reg s =
      .ok (s ++ (docBlocks reg ++ "# EOF\n")) () := by
  intro s
  simp [encode, wbind, strWriter, encodeEntries_run, String.append_assoc]

/-- Every error a step can produce is literally the result of one failed
call to the writer: the final sink state and the error value are exactly
those the failing write returned, so nothing ran afterwards and nothing
rewrapped the error. -/
def ErrFrom {σ ε α : Type} (w : Writer σ ε) (r : WRes σ ε α) : Prop :=
  ∀ sf e, r = .err sf e → ∃ sp t, w sp t = .err sf e

theorem errFrom_ok {σ ε α : Type} (w : Writer σ ε) (s : σ) (a : α) :
    ErrFrom w (.ok s a) := fun _ _ h => nomatch h

theorem errFrom_write {σ ε : Type} (w : Writer σ ε) (s : σ) (t : String) :
    ErrFrom w (w s t) := fun _ _ h => ⟨s, t, h⟩

theorem errFrom_bind {σ ε α β : Type} {w : Writer σ ε} {r : WRes σ ε α}
    {g : σ → α → WRes σ ε β} (hr : ErrFrom w r)
    (hg : ∀ s a, ErrFrom w (g s a)) : ErrFrom w (wbind r g) := by
  cases r with
  | ok s a => exact hg s a
  | err s e =>
    intro sf ef h
    exact hr sf ef (by simpa [wbind] using h)

theorem errFrom_strEncode {σ ε : Type} (w : Writer σ ε) (t : String) (s : σ) :
    ErrFrom w (strEncode w t s) :=
  errFrom_bind (errFrom_write w s t) (fun s _ => errFrom_ok w s ())

theorem errFrom_u64Encode {σ ε : Type} (w : Writer σ ε) (n : Nat) (s : σ) :
    ErrFrom w (u64Encode w n s) :=
  errFrom_bind (errFrom_write w s (Nat.repr n)) (fun s _ => errFrom_ok w s ())

theorem errFrom_f64Encode {σ ε : Type} (w : Writer σ ε) (v : F64) (s : σ) :
    ErrFrom w (f64Encode w v s) :=
  errFrom_bind (errFrom_write w s v.toString) (fun s _ => errFrom_ok w s ())

theorem errFrom_vecEncodeGo {σ ε : Type} (w : Writer σ ε)
    (labels : List (String × String)) : ∀ s, ErrFrom w (vecEncodeGo w labels s) := by
  induction labels with
  | nil => exact fun s => errFrom_ok w s ()
  | cons p rest ih =>
    obtain ⟨n, v⟩ := p
    intro s
    refine errFrom_bind (errFrom_write w s n) fun s _ =>
      errFrom_bind (errFrom_write w s "=\"") fun s _ =>
      errFrom_bind (errFrom_write w s v) fun s _ =>
      errFrom_bind (errFrom_write w s "\"") fun s _ => ?_
    cases rest with
    | nil => exact errFrom_ok w s ()
    | cons q rest2 =>
      exact errFrom_bind (errFrom_write w s ",") fun s _ => ih s

theorem errFrom_vecEncode {σ ε : Type} (w : Writer σ ε)
    (labels : List (String × String)) (s : σ) : ErrFrom w (vecEncode w labels s) := by
  cases labels with
  | nil => exact errFrom_ok w s ()
  | cons p rest => exact errFrom_vecEncodeGo w (p :: rest) s

theorem errFrom_encode_labels {σ ε : Type} (w : Writer σ ε) (enc : Encoder)
    (s : σ) : ErrFrom w (enc.encode_labels w s) := by
  obtain ⟨name, labels⟩ := enc
  cases labels with
  | none => exact errFrom_ok w s false
  | some ls =>
    exact errFrom_bind (errFrom_write w s "\x7b") fun s _ =>
      errFrom_bind (errFrom_vecEncode w ls s) fun s _ => errFrom_ok w s true

theorem errFrom_encode_suffix {σ ε : Type} (w : Writer σ ε) (enc : Encoder)
    (suffix : String) (s : σ) : ErrFrom w (enc.encode_suffix w suffix s) :=
  errFrom_bind (errFrom_write w s enc.name) fun s _ =>
    errFrom_bind (errFrom_write w s "_") fun s _ =>
    errFrom_bind (errFrom_write w s suffix) fun s _ =>
    errFrom_encode_labels w enc s

theorem errFrom_no_bucket {σ ε : Type} (w : Writer σ ε) (opened : Bool)
    (s : σ) : ErrFrom w (BucketEncoder.no_bucket w opened s) := by
  cases opened with
  | false => exact errFrom_ok w s ()
  | true =>
    exact errFrom_bind (errFrom_write w s "\x7d") fun s _ => errFrom_ok w s ()

theorem errFrom_encode_bucket {σ ε : Type} (w : Writer σ ε) (opened : Bool)
    {key value : σ → WRes σ ε Unit} (hk : ∀ s, ErrFrom w (key s))
    (hv : ∀ s, ErrFrom w (value s)) (s : σ) :
    ErrFrom w (BucketEncoder.encode_bucket w opened key value s) := by
  refine errFrom_bind ?_ fun s _ =>
    errFrom_bind (hk s) fun s _ =>
    errFrom_bind (errFrom_write w s "=\"") fun s _ =>
    errFrom_bind (hv s) fun s _ =>
    errFrom_bind (errFrom_write w s "\"\x7d") fun s _ => errFrom_ok w s ()
  cases opened with
  | false => exact errFrom_write w s "\x7b"
  | true => exact errFrom_write w s ", "

theorem errFrom_encode_value {σ ε : Type} (w : Writer σ ε)
    {value : σ → WRes σ ε Unit} (hv : ∀ s, ErrFrom w (value s)) (s : σ) :
    ErrFrom w (ValueEncoder.encode_value w value s) :=
  errFrom_bind (errFrom_write w s " ") fun s _ =>
    errFrom_bind (hv s) fun s _ =>
    errFrom_bind (errFrom_write w s "\n") fun s _ => errFrom_ok w s ()

theorem errFrom_encodeCounter {σ ε : Type} (w : Writer σ ε) (enc : Encoder)
    (value : Nat) (s : σ) : ErrFrom w (encodeCounter w enc value s) :=
  errFrom_bind (errFrom_encode_suffix w enc "total" s) fun s opened =>
    errFrom_bind (errFrom_no_bucket w opened s) fun s _ =>
    errFrom_encode_value w (errFrom_u64Encode w value) s

theorem errFrom_encodeHistogramBuckets {σ ε : Type} (w : Writer σ ε)
    (enc : Encoder) (buckets : List (F64 × Nat)) :
    ∀ s, ErrFrom w (encodeHistogramBuckets w enc buckets s) := by
  induction buckets with
  | nil => exact fun s => errFrom_ok w s ()
  | cons p rest ih =>
    obtain ⟨ub, count⟩ := p
    intro s
    exact errFrom_bind (errFrom_encode_suffix w enc "bucket" s) fun s opened =>
      errFrom_bind (errFrom_encode_bucket w opened (errFrom_strEncode w "le")
        (errFrom_strEncode w (if ub.beq f64MAX then "+Inf" else ub.toString)) s)
        fun s _ =>
      errFrom_bind (errFrom_encode_value w (errFrom_u64Encode w count) s)
        fun s _ => ih s

theorem errFrom_encodeHistogram {σ ε : Type} (w : Writer σ ε) (enc : Encoder)
    (sum : F64) (count : Nat) (buckets : List (F64 × Nat)) (s : σ) :
    ErrFrom w (encodeHistogram w enc sum count buckets s) :=
  errFrom_bind (errFrom_encode_suffix w enc "sum" s) fun s opened =>
    errFrom_bind (errFrom_no_bucket w opened s) fun s _ =>
    errFrom_bind (errFrom_encode_value w (errFrom_f64Encode w sum) s) fun s _ =>
    errFrom_bind (errFrom_encode_suffix w enc "count" s) fun s opened =>
    errFrom_bind (errFrom_no_bucket w opened s) fun s _ =>
    errFrom_bind (errFrom_encode_value w (errFrom_u64Encode w count) s) fun s _ =>
    errFrom_encodeHistogramBuckets w enc buckets s

theorem errFrom_encodeBase {σ ε : Type} (w : Writer σ ε) (enc : Encoder)
    (m : BaseMetric) (s : σ) : ErrFrom w (encodeBase w enc m s) := by
  cases m with
  | counter value => exact errFrom_encodeCounter w enc value s
  | histogram sum count buckets =>
    exact errFrom_encodeHistogram w enc sum count buckets s

theorem errFrom_encodeFamily {σ ε : Type} (w : Writer σ ε) (enc : Encoder)
    (entries : List (List (String × String) × BaseMetric)) :
    ∀ s, ErrFrom w (encodeFamily w enc entries s) := by
  induction entries with
  | nil => exact fun s => errFrom_ok w s ()
  | cons p rest ih =>
    obtain ⟨ls, m⟩ := p
    intro s
    exact errFrom_bind (errFrom_encodeBase w (enc.with_label_set ls) m s)
      fun s _ => ih s

theorem errFrom_encodeMetric {σ ε : Type} (w : Writer σ ε) (enc : Encoder)
    (m : Metric) (s : σ) : ErrFrom w (encodeMetric w enc m s) := by
  cases m with
  | base b => exact errFrom_encodeBase w enc b s
  | family entries => exact errFrom_encodeFamily w enc entries s

theorem errFrom_encodeEntries {σ ε : Type} (w : Writer σ ε)
    (reg : List (Descriptor × Metric)) :
    ∀ s, ErrFrom w (encodeEntries w reg s) := by
  induction reg with
  | nil => exact fun s => errFrom_ok w s ()
  | cons p rest ih =>
    obtain ⟨d, m⟩ := p
    intro s
    exact errFrom_bind (errFrom_write w s "# HELP ") fun s _ =>
      errFrom_bind (errFrom_write w s d.name) fun s _ =>
      errFrom_bind (errFrom_write w s " ") fun s _ =>
      errFrom_bind (errFrom_write w s d.help) fun s _ =>
      errFrom_bind (errFrom_write w s "\n") fun s _ =>
      errFrom_bind (errFrom_write w s "# TYPE ") fun s _ =>
      errFrom_bind (errFrom_write w s d.name) fun s _ =>
      errFrom_bind (errFrom_write w s " ") fun s _ =>
      errFrom_bind (errFrom_write w s d.m_type) fun s _ =>
      errFrom_bind (errFrom_write w s "\n") fun s _ =>
      errFrom_bind (errFrom_encodeMetric w ⟨d.name, none⟩ m s) fun s _ => ih s

theorem errFrom_encode {σ ε : Type} (w : Writer σ ε)
    (reg : List (Descriptor × Metric)) (s : σ) : ErrFrom w (encode w reg s) :=
  errFrom_bind (errFrom_encodeEntries w reg s) fun s _ =>
    errFrom_bind (errFrom_write w s "# EOF\n") fun s _ => errFrom_ok w s ()

/-- Claim C1: for every registry content, the bytes encode produces are
one block per registered metric in registration order — each block one
HELP line, then one TYPE line, then the sample lines of that metric —
followed by exactly one EOF line; and encoding an empty registry produces
exactly the EOF line and nothing else. -/
theorem encode_document_structure :
    (∀ (reg : List (Descriptor × Metric)) (s : String),
      encode strWriter reg s = .ok (s ++ (docBlocks reg ++ "# EOF\n")) ()) ∧
    encode strWriter [] "" = .ok "# EOF\n" () :=
  ⟨fun reg s => encode_run reg s, by decide⟩

/-- Claim C2, refuted by the code: the Histogram implementation of
EncodeMetric reads sum, count and buckets through three independent calls
(text.rs lines 256 to 265, with the source TODO at line 255 admitting the
lock is taken one by one instead of for the entire time), so a concurrent
observe of 1.5 landing between the sum read and the count read produces a
document with sum 0 and count 1 that matches neither consistent snapshot
of a histogram with bounds 1 and 2. -/
theorem histogram_mixed_reads_inconsistent :
    encodeBase strWriter ⟨"h", none⟩
        (.histogram (Histogram.new [⟨1, 0⟩, ⟨2, 0⟩]).sum
          ((Histogram.new [⟨1, 0⟩, ⟨2, 0⟩]).observe ⟨3, 1⟩).count
          ((Histogram.new [⟨1, 0⟩, ⟨2, 0⟩]).observe ⟨3, 1⟩).buckets) "" =
      .ok "h_sum 0\nh_count 1\nh_bucket\x7ble=\"1\"\x7d 0\nh_bucket\x7ble=\"2\"\x7d 1\nh_bucket\x7ble=\"+Inf\"\x7d 1\n" () ∧
    encodeBase strWriter ⟨"h", none⟩
        (.histogram (Histogram.new [⟨1, 0⟩, ⟨2, 0⟩]).sum
          (Histogram.new [⟨1, 0⟩, ⟨2, 0⟩]).count
          (Histogram.new [⟨1, 0⟩, ⟨2, 0⟩]).buckets) "" =
      .ok "h_sum 0\nh_count 0\nh_bucket\x7ble=\"1\"\x7d 0\nh_bucket\x7ble=\"2\"\x7d 0\nh_bucket\x7ble=\"+Inf\"\x7d 0\n" () ∧
    encodeBase strWriter ⟨"h", none⟩
        (.histogram ((Histogram.new [⟨1, 0⟩, ⟨2, 0⟩]).observe ⟨3, 1⟩).sum
          ((Histogram.new [⟨1, 0⟩, ⟨2, 0⟩]).observe ⟨3, 1⟩).count
          ((Histogram.new [⟨1, 0⟩, ⟨2, 0⟩]).observe ⟨3, 1⟩).buckets) "" =
      .ok "h_sum 1.5\nh_count 1\nh_bucket\x7ble=\"1\"\x7d 0\nh_bucket\x7ble=\"2\"\x7d 1\nh_bucket\x7ble=\"+Inf\"\x7d 1\n" () ∧
    ("h_sum 0\nh_count 1\nh_bucket\x7ble=\"1\"\x7d 0\nh_bucket\x7ble=\"2\"\x7d 1\nh_bucket\x7ble=\"+Inf\"\x7d 1\n" : String) ≠
      "h_sum 0\nh_count 0\nh_bucket\x7ble=\"1\"\x7d 0\nh_bucket\x7ble=\"2\"\x7d 0\nh_bucket\x7ble=\"+Inf\"\x7d 0\n" ∧
    ("h_sum 0\nh_count 1\nh_bucket\x7ble=\"1\"\x7d 0\nh_bucket\x7ble=\"2\"\x7d 1\nh_bucket\x7ble=\"+Inf\"\x7d 1\n" : String) ≠
      "h_sum 1.5\nh_count 1\nh_bucket\x7ble=\"1\"\x7d 0\nh_bucket\x7ble=\"2\"\x7d 1\nh_bucket\x7ble=\"+Inf\"\x7d 1\n" :=
  ⟨by decide, by decide, by decide, by decide, by decide⟩

/-- Claim C3 counterexample: an outer label set that is present but
serializes to zero pairs still makes the encoder write a curly bracket
pair — a family entry keyed by the empty label list yields a sample line
containing both bracket characters, contradicting the claim that no brace
characters appear for such a label set. -/
theorem empty_labelset_still_writes_braces :
    encodeMetric strWriter ⟨"requests", none⟩ (.family [([], .counter 1)]) "" =
      .ok "requests_total\x7b\x7d 1\n" () ∧
    '\x7b' ∈ "requests_total\x7b\x7d 1\n".data ∧
    '\x7d' ∈ "requests_total\x7b\x7d 1\n".data :=
  ⟨by decide, by decide, by decide⟩

/-- Claim C3 as amended: the label block is opened exactly when the outer
label set is present (Some) or a bucket label is written — with no outer
label set and no bucket label no brace is written, with no outer label
set and a bucket label one brace pair is written, and an outer label set
that is present but serializes to zero pairs still yields an empty
brace pair. -/
theorem label_block_iff_present_or_bucket :
    (∀ (name : String) (value : Nat) (s : String),
      encodeCounter strWriter ⟨name, none⟩ value s =
        .ok (s ++ name ++ "_" ++ "total" ++ " " ++ Nat.repr value ++ "\n") ()) ∧
    (∀ (name bv : String) (cnt : Nat) (s : String),
      wbind (Encoder.encode_suffix strWriter ⟨name, none⟩ "bucket" s) (fun s opened =>
      wbind (BucketEncoder.encode_bucket strWriter opened
        (strEncode strWriter "le") (strEncode strWriter bv) s) (fun s _ =>
      ValueEncoder.encode_value strWriter (u64Encode strWriter cnt) s)) =
        .ok (s ++ name ++ "_" ++ "bucket" ++ "\x7b" ++ "le" ++ "=\"" ++ bv ++
          "\"\x7d" ++ " " ++ Nat.repr cnt ++ "\n") ()) ∧
    encodeCounter strWriter ⟨"requests", some []⟩ 1 "" =
      .ok "requests_total\x7b\x7d 1\n" () :=
  ⟨fun _ _ _ => rfl, fun _ _ _ _ => rfl, by decide⟩

/-- Claim C4 counterexample: when an outer label set and the bucket label
share one line, the bucket label is appended after a comma AND a space,
not after a bare comma — the produced line differs from the one the claim
predicts. -/
theorem bucket_separator_not_plain_comma :
    wbind (Encoder.encode_suffix strWriter
        ⟨"requests", some [("method", "GET")]⟩ "bucket" "") (fun s opened =>
    wbind (BucketEncoder.encode_bucket strWriter opened
      (strEncode strWriter "le") (strEncode strWriter "1") s) (fun s _ =>
    ValueEncoder.encode_value strWriter (u64Encode strWriter 0) s)) =
      .ok "requests_bucket\x7bmethod=\"GET\", le=\"1\"\x7d 0\n" () ∧
    ("requests_bucket\x7bmethod=\"GET\", le=\"1\"\x7d 0\n" : String) ≠
      "requests_bucket\x7bmethod=\"GET\",le=\"1\"\x7d 0\n" :=
  ⟨by decide, by decide⟩

/-- Claim C4 as amended: outer labels and the bucket label merge into one
brace-delimited block with the bucket label appended last inside the
already-open brace and no second brace opened; outer labels are separated
from each other by a bare comma, while the bucket label is appended after
a comma-and-space separator. -/
theorem merged_label_block_bucket_last :
    ∀ (name k1 v1 k2 v2 bv : String) (cnt : Nat) (s : String),
      wbind (Encoder.encode_suffix strWriter
          ⟨name, some [(k1, v1), (k2, v2)]⟩ "bucket" s) (fun s opened =>
      wbind (BucketEncoder.encode_bucket strWriter opened
        (strEncode strWriter "le") (strEncode strWriter bv) s) (fun s _ =>
      ValueEncoder.encode_value strWriter (u64Encode strWriter cnt) s)) =
        .ok (s ++ name ++ "_" ++ "bucket" ++ "\x7b" ++ k1 ++ "=\"" ++ v1 ++
          "\"" ++ "," ++ k2 ++ "=\"" ++ v2 ++ "\"" ++ ", " ++ "le" ++ "=\"" ++
          bv ++ "\"\x7d" ++ " " ++ Nat.repr cnt ++ "\n") () :=
  fun _ _ _ _ _ _ _ _ => rfl

/-- Claim C5: a histogram with bounds 1 and 2 (the f64::MAX sentinel
auto-appended) after one observe of 1.5 encodes bucket lines le 1 with
count 0, le 2 with count 1, and the sentinel rendered as the literal
plus-Inf token with count 1 — never as its numeric magnitude and never in
a value position — plus sum 1.5 and count 1. -/
theorem histogram_inf_sentinel_rendering :
    ∀ (name s : String),
      encodeBase strWriter ⟨name, none⟩
          (.histogram ((Histogram.new [⟨1, 0⟩, ⟨2, 0⟩]).observe ⟨3, 1⟩).sum
            ((Histogram.new [⟨1, 0⟩, ⟨2, 0⟩]).observe ⟨3, 1⟩).count
            ((Histogram.new [⟨1, 0⟩, ⟨2, 0⟩]).observe ⟨3, 1⟩).buckets) s =
        .ok (s ++ name ++ "_" ++ "sum" ++ " " ++ "1.5" ++ "\n"
          ++ name ++ "_" ++ "count" ++ " " ++ "1" ++ "\n"
          ++ name ++ "_" ++ "bucket" ++ "\x7b" ++ "le" ++ "=\"" ++ "1" ++ "\"\x7d"
            ++ " " ++ "0" ++ "\n"
          ++ name ++ "_" ++ "bucket" ++ "\x7b" ++ "le" ++ "=\"" ++ "2" ++ "\"\x7d"
            ++ " " ++ "1" ++ "\n"
          ++ name ++ "_" ++ "bucket" ++ "\x7b" ++ "le" ++ "=\"" ++ "+Inf" ++ "\"\x7d"
            ++ " " ++ "1" ++ "\n") () :=
  fun _ _ => rfl

/-- Claim C6: a counter with no labels and value 5 under the name
requests emits exactly one sample line carrying the single total suffix
and no label block, between its HELP and TYPE lines and the EOF line,
whatever the help and type strings of its descriptor are. -/
theorem counter_total_sample_line :
    ∀ (help m_type s : String),
      encode strWriter [(⟨"requests", help, m_type⟩, .base (.counter 5))] s =
        .ok (s ++ "# HELP " ++ "requests" ++ " " ++ help ++ "\n"
          ++ "# TYPE " ++ "requests" ++ " " ++ m_type ++ "\n"
          ++ "requests" ++ "_" ++ "total" ++ " " ++ "5" ++ "\n"
          ++ "# EOF\n") () :=
  fun _ _ _ => rfl

/-- Claim C7: a family keyed by the single label pair method GET holding
a counter with value 1 encodes the sample line requests_total, one brace
pair around the label pair, closed before the value 1. -/
theorem family_labeled_sample_line :
    encode strWriter [(⟨"requests", "count of requests", "counter"⟩,
        .family [([("method", "GET")], .counter 1)])] "" =
      .ok "# HELP requests count of requests\n# TYPE requests counter\nrequests_total\x7bmethod=\"GET\"\x7d 1\n# EOF\n" () :=
  by decide

/-- Claim C8: whenever encode returns an error, that error and the final
sink state are exactly the ones some single failed writer call returned:
the error value is propagated unchanged, nothing is written after the
failing call, and the partially written document is simply left in the
sink. -/
theorem encode_error_is_writer_error {σ ε : Type} (w : Writer σ ε)
    (reg : List (Descriptor × Metric)) (s sf : σ) (e : ε)
    (h : encode w reg s = .err sf e) : ∃ sp t, w sp t = .err sf e :=
  errFrom_encode w reg s sf e h

/-- Witness for claim C8: a sink that accepts three writes and then fails
with error 7 makes encode of a one-counter registry stop with exactly
error 7 and exactly the three accepted writes in the buffer. -/
theorem encode_error_is_writer_error_witness :
    ∃ sp t, failWriter 7 sp t = .err (("# HELP requests ", 0) : String × Nat) 7 :=
  encode_error_is_writer_error (failWriter 7)
    [(⟨"requests", "count of requests", "counter"⟩, .base (.counter 5))]
    ("", 3) ("# HELP requests ", 0) 7 (by decide)

/-- Claim C9, refuted by the code: the value stage does not consume
itself — encode_value takes a mutable reference, not ownership (text.rs
line 141, with the TODO at lines 49 and 50 proposing the single-use
staged design) — so the stage can be driven twice, appending a second
space, scalar and newline after the first and corrupting the sample
line. -/
theorem value_stage_reuse_writes_second_value :
    wbind (ValueEncoder.encode_value strWriter (u64Encode strWriter 5)
        "requests_total")
      (fun s _ => ValueEncoder.encode_value strWriter (u64Encode strWriter 6) s) =
      .ok "requests_total 5\n 6\n" () :=
  by decide

/-- Claim C10: every write ignores the byte count the sink reports, so a
sink that accepts only ten bytes and then keeps reporting success makes
encode return Ok with the rest of the document silently missing, while
the perfect sink receives the full document. -/
theorem short_write_silent_truncation :
    encode (truncWriter 10)
        [(⟨"requests", "count of requests", "counter"⟩, .base (.counter 5))] "" =
      .ok "# HELP req" () ∧
    encode strWriter
        [(⟨"requests", "count of requests", "counter"⟩, .base (.counter 5))] "" =
      .ok "# HELP requests count of requests\n# TYPE requests counter\nrequests_total 5\n# EOF\n" () ∧
    ("# HELP req" : String) ≠
      "# HELP requests count of requests\n# TYPE requests counter\nrequests_total 5\n# EOF\n" :=
  ⟨by decide, by decide, by decide⟩

end PromText
